import Mathlib

/-!
Verification of the sentinel-finance backend automation subsystem.

Shallow embedding of the core operations of `backend/database.py`,
`backend/watchdog.py` and `backend/recurring_executor.py`.  Database rows
become Lean structures, SQL updates become functions on lists of rows,
and the event/scheduler loops become explicit step functions.  Python
`float` risk scores are modelled as exact rationals `ℚ` and `time.time()`
timestamps as integer seconds (the claims settled here depend only on
comparisons and list structure, not on IEEE-754 rounding or sub-second
granularity); Python `int` values are `Nat`/`Int`.
-/

set_option maxRecDepth 4000

namespace Sentinel

/-! ## Recurring schedules (`backend/database.py`)

A row of the `recurring_schedules` table.  `next_execution` is stored as
ISO text and compared as text by the SQL in `get_due_schedules`, so it is
a `String` here; `is_active`, `failed_count` are the INTEGER columns. -/

structure ScheduleRow where
  id : String
  user_address : String
  next_execution : String
  is_active : Nat
  execution_count : Nat
  failed_count : Nat
  last_executed : Option String
  last_error : Option String
  updated_at : String
  deriving DecidableEq, Repr

/-- `update_schedule_failure` applied to a single row (database.py:475-494):
read `failed_count`, add 1, deactivate when the new count is not below 3. -/
def updateScheduleFailureRow (error : String) (now : String) (s : ScheduleRow) : ScheduleRow :=
  let failed_count := s.failed_count + 1
  let is_active := if failed_count < 3 then 1 else 0
  { s with failed_count := failed_count, last_error := some error,
           is_active := is_active, updated_at := now }

/-- `update_schedule_execution` applied to a single row (database.py:459-473). -/
def updateScheduleExecutionRow (tx_hash : String) (next_execution : String) (now : String)
    (s : ScheduleRow) : ScheduleRow :=
  let _ := tx_hash
  { s with next_execution := next_execution, last_executed := some now,
           execution_count := s.execution_count + 1, failed_count := 0,
           last_error := none, updated_at := now }

/-- `UPDATE ... WHERE id = %s` over the whole table. -/
def updateWhereId (f : ScheduleRow → ScheduleRow) (schedule_id : String)
    (db : List ScheduleRow) : List ScheduleRow :=
  db.map (fun s => if s.id = schedule_id then f s else s)

def update_schedule_failure (schedule_id : String) (error : String) (now : String)
    (db : List ScheduleRow) : List ScheduleRow :=
  updateWhereId (updateScheduleFailureRow error now) schedule_id db

def update_schedule_execution (schedule_id : String) (tx_hash : String)
    (next_execution : String) (now : String) (db : List ScheduleRow) : List ScheduleRow :=
  updateWhereId (updateScheduleExecutionRow tx_hash next_execution now) schedule_id db

/-- Lexicographic byte-wise comparison of TEXT values, as SQL compares the
ISO-format `next_execution` column. -/
def leChars : List Char → List Char → Bool
  | [], _ => true
  | _ :: _, [] => false
  | a :: as, b :: bs =>
    if a.toNat < b.toNat then true
    else if b.toNat < a.toNat then false
    else leChars as bs

def textLe (a b : String) : Bool := leChars a.data b.data

/-- `get_due_schedules` (database.py:446-457): rows with
`is_active = 1 AND next_execution <= before` (TEXT comparison). -/
def get_due_schedules (before : String) (db : List ScheduleRow) : List ScheduleRow :=
  db.filter (fun s => s.is_active == 1 && textLe s.next_execution before)

/-! ## Savings plans and the execution log (`recurring_executor.py`) -/

structure SavingsPlanRow where
  id : String
  user_address : String
  is_active : Nat
  deposits_completed : Nat
  withdrawn : Nat
  next_deposit : Option String
  deriving DecidableEq, Repr

structure ExecutionLogEntry where
  schedule_id : Option String
  savings_plan_id : Option String
  user_address : String
  execution_type : String
  amount : ℚ
  destination : String
  tx_hash : Option String
  status : String
  error_message : Option String
  deriving DecidableEq, Repr

/-- The persistent state touched by the scheduler's bookkeeping. -/
structure SchedulerDb where
  schedules : List ScheduleRow
  savings_plans : List SavingsPlanRow
  execution_log : List ExecutionLogEntry
  deriving Repr

/-- Python's `payment_id.startswith('sched_')`, modelled on the character
list so that it evaluates by structural recursion. -/
def startsWithSched (payment_id : String) : Bool :=
  "sched_".data.isPrefixOf payment_id.data

/-- The failed log entry appended by
`PostgreSQLRecurringDatabase.update_payment_failure` (recurring_executor.py:646-662). -/
def failedLogEntry (payment_id : String) (error : String) : ExecutionLogEntry :=
  { schedule_id := if startsWithSched payment_id then some payment_id else none
    savings_plan_id := if startsWithSched payment_id then none else some payment_id
    user_address := ""
    execution_type := "auto"
    amount := 0
    destination := ""
    tx_hash := none
    status := "failed"
    error_message := some error }

/-- `PostgreSQLRecurringDatabase.update_payment_failure`
(recurring_executor.py:646-662): only ids starting with `sched_` touch the
`recurring_schedules` table; every failure appends one log entry. -/
def update_payment_failure (payment_id : String) (error : String) (now : String)
    (db : SchedulerDb) : SchedulerDb :=
  let schedules :=
    if startsWithSched payment_id then
      update_schedule_failure payment_id error now db.schedules
    else db.schedules
  { db with schedules := schedules
            execution_log := db.execution_log ++ [failedLogEntry payment_id error] }

/-! ## Risk classification in `process_payment_request` (`backend/watchdog.py`)

`RISK_CONFIG` thresholds (watchdog.py:55-70) and the alert/notification
branch of `process_payment_request` (watchdog.py:288-309). -/

def high_risk_score : ℚ := 7/10
def medium_risk_score : ℚ := 4/10

structure AlertRow where
  tx_id : Nat
  alert_type : String
  severity : String
  deriving DecidableEq, Repr

/-- The persisted alert and external fan-out performed for one processed
`PaymentRequested` event, as a function of the computed risk score.
`notified` records whether `self.notifier.notify(...)` was awaited. -/
structure AlertEffects where
  alert : Option AlertRow
  notified : Bool
  deriving DecidableEq, Repr

def alertDecision (tx_id : Nat) (risk_score : ℚ) : AlertEffects :=
  if risk_score ≥ high_risk_score then
    { alert := some ⟨tx_id, "high_risk", "critical"⟩, notified := true }
  else if risk_score ≥ medium_risk_score then
    { alert := some ⟨tx_id, "medium_risk", "warning"⟩, notified := false }
  else
    { alert := none, notified := false }

/-! ## The risk scorer (`backend/watchdog.py`)

`SentinelWatchdog.calculate_risk_score` (watchdog.py:203-248).  The agent
profile row carries the fields the scorer reads (`avg_amount_wei` is
stored as TEXT and parsed with `int()`, so it is an `Int` here). -/

def high_amount_multiplier : ℚ := 5
def rapid_tx_window : Int := 300
def rapid_tx_count : Nat := 5
def new_agent_threshold : Nat := 3
def amount_anomaly_weight : ℚ := 3/10
def new_agent_weight : ℚ := 1/5
def unknown_agent_weight : ℚ := 1/4
def untrusted_vendor_weight : ℚ := 3/10
def rapid_tx_weight : ℚ := 1/4
def volume_spike_weight : ℚ := 15/100

structure AgentProfileRow where
  address : String
  total_transactions : Nat
  avg_amount_wei : Int
  deriving DecidableEq, Repr

/-- An entry of the in-memory `self.recent_transactions` sliding window. -/
structure RecentTransaction where
  tx_id : Nat
  agent : String
  timestamp : Int
  amount : Int
  deriving DecidableEq, Repr

/-- The reassignment
`self.recent_transactions = [tx for tx in ... if now - tx.timestamp < 3600]`. -/
def pruneRecent (now : Int) (recent : List RecentTransaction) : List RecentTransaction :=
  recent.filter (fun tx => decide (now - tx.timestamp < 3600))

/-- The `recent_window` comprehension: same agent, within the rapid window. -/
def windowOf (agent : String) (now : Int) (recent : List RecentTransaction) :
    List RecentTransaction :=
  recent.filter (fun tx => decide (now - tx.timestamp < rapid_tx_window ∧ tx.agent = agent))

/-- The additive scoring of `calculate_risk_score` as a function of the
agent profile, the vendor trust flag, the amount and the recent window;
factor order follows the source's append order. -/
def riskFromWindow (profile : Option AgentProfileRow) (is_trusted : Bool) (amount : Int)
    (window : List RecentTransaction) : ℚ × List String :=
  let s1 : ℚ × List String :=
    match profile with
    | some p =>
      let base : ℚ × List String :=
        if 0 < p.avg_amount_wei ∧ (amount : ℚ) > (p.avg_amount_wei : ℚ) * high_amount_multiplier
        then (amount_anomaly_weight, ["amount_anomaly"]) else (0, [])
      if p.total_transactions < new_agent_threshold then
        (base.1 + new_agent_weight, base.2 ++ ["new_agent"])
      else base
    | none => (unknown_agent_weight, ["unknown_agent"])
  let s2 :=
    if is_trusted then s1 else (s1.1 + untrusted_vendor_weight, s1.2 ++ ["untrusted_vendor"])
  let s3 :=
    if rapid_tx_count ≤ window.length then
      (s2.1 + rapid_tx_weight, s2.2 ++ ["rapid_transactions"])
    else s2
  let total_recent_volume := (window.map (fun tx => tx.amount)).sum
  let s4 :=
    match profile with
    | some p =>
      if total_recent_volume > p.avg_amount_wei * 10 then
        (s3.1 + volume_spike_weight, s3.2 ++ ["volume_spike"])
      else s3
    | none => s3
  (min s4.1 1, s4.2)

structure RiskResult where
  score : ℚ
  factors : List String
  recent_transactions : List RecentTransaction
  deriving DecidableEq, Repr

/-- `calculate_risk_score` (watchdog.py:203-248): prune the shared window
to the last hour (a write to `self.recent_transactions`), filter the
agent's rapid window from the pruned list, and score additively. -/
def calculate_risk_score (profile : Option AgentProfileRow) (is_trusted : Bool)
    (agent : String) (amount : Int) (recent : List RecentTransaction) (now : Int) : RiskResult :=
  let pruned := pruneRecent now recent
  let window := windowOf agent now pruned
  let s := riskFromWindow profile is_trusted amount window
  { score := s.1, factors := s.2, recent_transactions := pruned }

/-- The effect of `process_payment_request` on the sliding window for one
event: score first (which prunes the window), then append the new
`RecentTransaction` (watchdog.py:279-284).  The event's `timestamp` is the
`time.time()` of its processing. -/
def processBurstStep (profile : Option AgentProfileRow) (is_trusted : Bool)
    (st : List RecentTransaction) (e : RecentTransaction) :
    List String × List RecentTransaction :=
  let res := calculate_risk_score profile is_trusted e.agent e.amount st e.timestamp
  (res.factors, res.recent_transactions ++ [e])

/-- Sequentially processing a burst of `PaymentRequested` events,
returning the risk-factor list computed for each event. -/
def processBurst (profile : Option AgentProfileRow) (is_trusted : Bool)
    (st : List RecentTransaction) : List RecentTransaction → List (List String)
  | [] => []
  | e :: es =>
    (processBurstStep profile is_trusted st e).1 ::
      processBurst profile is_trusted (processBurstStep profile is_trusted st e).2 es

/-- Five payment requests from one agent, all within a 50-second span. -/
def demoBurst5 : List RecentTransaction :=
  [⟨1, "0xagent", 0, 10⟩, ⟨2, "0xagent", 10, 10⟩, ⟨3, "0xagent", 20, 10⟩,
   ⟨4, "0xagent", 30, 10⟩, ⟨5, "0xagent", 40, 10⟩]

/-- The same burst extended with a sixth request. -/
def demoBurst6 : List RecentTransaction := demoBurst5 ++ [⟨6, "0xagent", 50, 10⟩]

/-! ## Next-occurrence calculation (`recurring_executor.py`)

`RecurringExecutor.calculate_next_date` (recurring_executor.py:398-415),
over a Gregorian-calendar model of Python's `datetime`/`timedelta`. -/

structure PyDateTime where
  year : Nat
  month : Nat
  day : Nat
  hour : Nat
  minute : Nat
  second : Nat
  microsecond : Nat
  deriving DecidableEq, Repr

def isLeapYear (y : Nat) : Bool :=
  (y % 4 == 0 && !(y % 100 == 0)) || y % 400 == 0

def daysInMonth (y m : Nat) : Nat :=
  if m = 2 then (if isLeapYear y then 29 else 28)
  else if m = 4 ∨ m = 6 ∨ m = 9 ∨ m = 11 then 30
  else 31

/-- Advance a datetime by one day, rolling over month and year ends. -/
def addOneDay (d : PyDateTime) : PyDateTime :=
  if d.day < daysInMonth d.year d.month then { d with day := d.day + 1 }
  else if d.month < 12 then { d with day := 1, month := d.month + 1 }
  else { d with day := 1, month := 1, year := d.year + 1 }

/-- Python's `datetime + timedelta(days=n)`. -/
def addDays : Nat → PyDateTime → PyDateTime
  | 0, d => d
  | n + 1, d => addDays n (addOneDay d)

/-- `next_date.replace(hour=hour, minute=minute, second=0, microsecond=0)`. -/
def replaceTime (hour minute : Nat) (d : PyDateTime) : PyDateTime :=
  { d with hour := hour, minute := minute, second := 0, microsecond := 0 }

inductive PaymentFrequency
  | daily
  | weekly
  | biweekly
  | monthly
  | yearly
  deriving DecidableEq, Repr

/-- `PaymentFrequency(value)` with the `_missing_` fallback to MONTHLY
(recurring_executor.py:77-87). -/
def parsePaymentFrequency (value : String) : PaymentFrequency :=
  if value = "daily" then .daily
  else if value = "weekly" then .weekly
  else if value = "biweekly" then .biweekly
  else if value = "monthly" then .monthly
  else if value = "yearly" then .yearly
  else .monthly

/-- `calculate_next_date` (recurring_executor.py:398-415): add a fixed
`timedelta` to `now` — 1, 7, 14, 30 or 365 days — then overwrite the time
of day with the configured execution time.  (The `else` fallback of the
source, also 30 days, is unreachable because the enum's `_missing_`
already folds unknown values into MONTHLY.) -/
def calculate_next_date (frequency : PaymentFrequency) (hour minute : Nat)
    (now : PyDateTime) : PyDateTime :=
  let next_date :=
    match frequency with
    | .daily => addDays 1 now
    | .weekly => addDays 7 now
    | .biweekly => addDays 14 now
    | .monthly => addDays 30 now
    | .yearly => addDays 365 now
  replaceTime hour minute next_date

/-- Modelled from the spec (4.5): advance by one calendar month, clamping
the day-of-month to at most 28, then overwrite the time of day.  This is
the comparator for what the spec asserts the monthly rule to be. -/
def specMonthlyNext (hour minute : Nat) (now : PyDateTime) : PyDateTime :=
  { year := if now.month = 12 then now.year + 1 else now.year
    month := if now.month = 12 then 1 else now.month + 1
    day := min now.day 28
    hour := hour, minute := minute, second := 0, microsecond := 0 }

/-- A structurally valid Gregorian calendar date. -/
def ValidDate (d : PyDateTime) : Prop :=
  1 ≤ d.month ∧ d.month ≤ 12 ∧ 1 ≤ d.day ∧ d.day ≤ daysInMonth d.year d.month

instance (d : PyDateTime) : Decidable (ValidDate d) := by
  unfold ValidDate
  infer_instance

/-! ## Transaction rows (`backend/database.py`)

The `transactions` table row and the operations that touch it after
creation: `update_transaction_status` (database.py:915-933) and the
`ON CONFLICT (tx_id, vault_address) DO UPDATE` clause of
`insert_transaction` (database.py:890-913). -/

structure TransactionRow where
  tx_id : Nat
  vault_address : String
  agent : String
  vendor : String
  amount_wei : String
  timestamp : Nat
  execute_after : Nat
  executed : Nat
  revoked : Nat
  reason : String
  risk_score : ℚ
  risk_factors : List String
  hash : String
  updated_at : String
  deriving DecidableEq, Repr

/-- The `tx_data` dict assembled by `process_payment_request`
(watchdog.py:262-273) and passed to `insert_transaction`. -/
structure TxData where
  tx_id : Nat
  vault_address : String
  agent : String
  vendor : String
  amount : String
  timestamp : Nat
  execute_after : Nat
  executed : Nat
  revoked : Nat
  risk_score : ℚ
  risk_factors : List String
  deriving DecidableEq, Repr

/-- `update_transaction_status` applied to a matching row: dynamic SET of
`executed`, `revoked`, `reason` for the arguments present, always touching
`updated_at`. -/
def update_transaction_status (executed : Option Bool) (revoked : Option Bool)
    (reason : Option String) (now : String) (row : TransactionRow) : TransactionRow :=
  let r1 := { row with updated_at := now }
  let r2 := match executed with
    | some b => { r1 with executed := if b then 1 else 0 }
    | none => r1
  let r3 := match revoked with
    | some b => { r2 with revoked := if b then 1 else 0 }
    | none => r2
  match reason with
  | some s => { r3 with reason := s }
  | none => r3

/-- The `ON CONFLICT (tx_id, vault_address) DO UPDATE` clause of
`insert_transaction`: re-inserting an existing `(tx_id, vault)` only
overwrites `executed` and `revoked` with the excluded values and bumps
`updated_at`; the stored hash and all other columns keep their values. -/
def reinsertOnConflict (tx_data : TxData) (now : String) (existing : TransactionRow) :
    TransactionRow :=
  { existing with executed := tx_data.executed, revoked := tx_data.revoked, updated_at := now }

/-- A concrete stored transaction row. -/
def demoTxRow : TransactionRow :=
  { tx_id := 3, vault_address := "0xvault", agent := "0xagent", vendor := "0xvendor",
    amount_wei := "1000", timestamp := 1700000000, execute_after := 1700003600,
    executed := 0, revoked := 0, reason := "", risk_score := 1/2,
    risk_factors := ["new_agent"], hash := "abc123", updated_at := "t0" }

/-- A concrete schedule row that has already failed twice. -/
def demoFailingRow : ScheduleRow :=
  ⟨"sched_1", "u", "2024-01-01", 1, 0, 2, none, none, "t0"⟩

/-- A concrete active schedule row that is due. -/
def demoDueRow : ScheduleRow :=
  ⟨"sched_2", "u", "2024-01-01", 1, 5, 0, none, none, "t0"⟩

/-! ## The polling loop (`backend/watchdog.py`)

One iteration of `SentinelWatchdog.poll_events` (watchdog.py:333-385).
Events are opaque; fetching logs and processing a single event are
fallible operations (`Except`), modelling raised exceptions.  The model
records the cursor after the cycle, the events actually processed before
any exception, and whether the cycle completed. -/

abbrev Event := Nat

/-- Sequential processing of a list of fetched events by a fallible
handler: the processed prefix, and whether all succeeded (the first raise
aborts the cycle). -/
def processAll (handler : Event → Except String Unit) : List Event → List Event × Bool
  | [] => ([], true)
  | e :: es =>
    match handler e with
    | .error _ => ([], false)
    | .ok _ => (e :: (processAll handler es).1, (processAll handler es).2)

structure CycleOutcome where
  cursor : Nat
  processed : List Event
  ok : Bool
  deriving DecidableEq, Repr

/-- One iteration of the `while self.running` loop of `poll_events`:
if no new block, sleep (cursor untouched); otherwise fetch the chunk
`[cursor+1, min (cursor+1+100) current]` for the three event kinds,
process each list in order, and only after all three succeed assign
`self.last_processed_block = to_block`.  Any raised exception is caught
by the `except` clause with the cursor still at its old value. -/
def pollCycle (last_processed_block current_block : Nat)
    (fetchRequested fetchExecuted fetchRevoked : Nat → Nat → Except String (List Event))
    (procRequested procExecuted procRevoked : Event → Except String Unit) : CycleOutcome :=
  if current_block ≤ last_processed_block then
    { cursor := last_processed_block, processed := [], ok := true }
  else
    let from_block := last_processed_block + 1
    let to_block := min (from_block + 100) current_block
    match fetchRequested from_block to_block with
    | .error _ => { cursor := last_processed_block, processed := [], ok := false }
    | .ok evs₁ =>
      match processAll procRequested evs₁ with
      | (done₁, false) => { cursor := last_processed_block, processed := done₁, ok := false }
      | (done₁, true) =>
        match fetchExecuted from_block to_block with
        | .error _ => { cursor := last_processed_block, processed := done₁, ok := false }
        | .ok evs₂ =>
          match processAll procExecuted evs₂ with
          | (done₂, false) =>
            { cursor := last_processed_block, processed := done₁ ++ done₂, ok := false }
          | (done₂, true) =>
            match fetchRevoked from_block to_block with
            | .error _ =>
              { cursor := last_processed_block, processed := done₁ ++ done₂, ok := false }
            | .ok evs₃ =>
              match processAll procRevoked evs₃ with
              | (done₃, false) =>
                { cursor := last_processed_block, processed := done₁ ++ done₂ ++ done₃,
                  ok := false }
              | (done₃, true) =>
                { cursor := to_block, processed := done₁ ++ done₂ ++ done₃, ok := true }

/-! ## Destination validation (`recurring_executor.py`)

`NETWORK_CONFIG` savings-contract addresses (recurring_executor.py:33-46)
and `RecurringExecutor.is_valid_destination` (recurring_executor.py:277-288). -/

def sepoliaSavingsContract : String := "0xcF493dB2D2B4BffB8A38f961276019D5a00480DB"

def mainnetSavingsContract : String := "0xb1c74612c81fe8f685c1a3586d753721847d4549"

/-- Python `str.lower()` restricted to ASCII, which is all the code applies
it to (hex addresses). -/
def lowerChar (c : Char) : Char :=
  if 'A' ≤ c ∧ c ≤ 'Z' then Char.ofNat (c.toNat + 32) else c

def lowerStr (s : String) : String := ⟨s.data.map lowerChar⟩

structure ValidationResult where
  valid : Bool
  reason : String
  deriving DecidableEq, Repr

/-- `is_valid_destination` (recurring_executor.py:277-288).  The network
configurations are iterated in insertion order: sepolia, then mainnet.
The final fallback returns `valid := true` for every remaining address. -/
def is_valid_destination (destination : String) (vault_address : String) : ValidationResult :=
  let dest_lower := lowerStr destination
  let vault_lower := lowerStr vault_address
  if dest_lower = vault_lower then
    { valid := true, reason := "Own vault" }
  else if dest_lower = lowerStr sepoliaSavingsContract then
    { valid := true, reason := "Savings contract" }
  else if dest_lower = lowerStr mainnetSavingsContract then
    { valid := true, reason := "Savings contract" }
  else
    { valid := true, reason := "Trusted vendor" }

/-! ## The transaction integrity hash (`backend/database.py`)

`compute_hash` (database.py:68-70) is
`sha256(json.dumps(data, sort_keys=True).encode()).hexdigest()`.  The
embedding spells out both halves: the canonical serialization produced by
`json.dumps` with its default `ensure_ascii=True` escaping and `", "`,
`": "` separators, and FIPS-180-4 SHA-256 over the resulting ASCII bytes
(checked against the standard test vectors and against CPython's output
during development). -/

def quoteChar : Char := Char.ofNat 34

def hexDigitChar (n : Nat) : Char :=
  if n = 0 then '0' else if n = 1 then '1' else if n = 2 then '2' else if n = 3 then '3'
  else if n = 4 then '4' else if n = 5 then '5' else if n = 6 then '6' else if n = 7 then '7'
  else if n = 8 then '8' else if n = 9 then '9' else if n = 10 then 'a' else if n = 11 then 'b'
  else if n = 12 then 'c' else if n = 13 then 'd' else if n = 14 then 'e' else 'f'

def hexCharVal (c : Char) : Nat :=
  if c = '0' then 0 else if c = '1' then 1 else if c = '2' then 2 else if c = '3' then 3
  else if c = '4' then 4 else if c = '5' then 5 else if c = '6' then 6 else if c = '7' then 7
  else if c = '8' then 8 else if c = '9' then 9 else if c = 'a' then 10 else if c = 'b' then 11
  else if c = 'c' then 12 else if c = 'd' then 13 else if c = 'e' then 14 else if c = 'f' then 15
  else 16

def hex4 (n : Nat) : List Char :=
  [hexDigitChar (n / 4096 % 16), hexDigitChar (n / 256 % 16),
   hexDigitChar (n / 16 % 16), hexDigitChar (n % 16)]

/-- One character of CPython's `py_encode_basestring_ascii` (the escaping
used by `json.dumps` with its default `ensure_ascii=True`): named escapes,
`\uXXXX` for other control and non-ASCII BMP characters, and surrogate
pairs beyond the BMP. -/
def escChar (c : Char) : List Char :=
  if c = '\\' then ['\\', '\\']
  else if c = quoteChar then ['\\', quoteChar]
  else if c = '\n' then ['\\', 'n']
  else if c = '\r' then ['\\', 'r']
  else if c = '\t' then ['\\', 't']
  else if c.toNat = 8 then ['\\', 'b']
  else if c.toNat = 12 then ['\\', 'f']
  else if c.toNat < 32 then '\\' :: 'u' :: hex4 c.toNat
  else if c.toNat ≤ 126 then [c]
  else if c.toNat ≤ 65535 then '\\' :: 'u' :: hex4 c.toNat
  else ('\\' :: 'u' :: hex4 (55296 + (c.toNat - 65536) / 1024)) ++
       ('\\' :: 'u' :: hex4 (56320 + (c.toNat - 65536) % 1024))

def hexQuad : List Char → Option (Nat × List Char)
  | h1 :: h2 :: h3 :: h4 :: rest =>
    some (hexCharVal h1 * 4096 + hexCharVal h2 * 256 + hexCharVal h3 * 16 + hexCharVal h4, rest)
  | _ => none

/-- Decoder for a single escaped unit; used to prove the escaping is
prefix-determined (uniquely decodable). -/
def decodeEsc : List Char → Option (Nat × List Char)
  | [] => none
  | c :: rest =>
    if c = '\\' then
      match rest with
      | [] => none
      | e :: rest2 =>
        if e = '\\' then some (92, rest2)
        else if e = quoteChar then some (34, rest2)
        else if e = 'n' then some (10, rest2)
        else if e = 'r' then some (13, rest2)
        else if e = 't' then some (9, rest2)
        else if e = 'b' then some (8, rest2)
        else if e = 'f' then some (12, rest2)
        else if e = 'u' then
          match hexQuad rest2 with
          | none => none
          | some (v, rest3) =>
            if 55296 ≤ v ∧ v ≤ 56319 then
              match rest3 with
              | b1 :: b2 :: rest4 =>
                if b1 = '\\' ∧ b2 = 'u' then
                  match hexQuad rest4 with
                  | some (w, rest5) => some (65536 + (v - 55296) * 1024 + (w - 56320), rest5)
                  | none => none
                else none
              | _ => none
            else some (v, rest3)
        else none
    else some (c.toNat, rest)

def escList : List Char → List Char
  | [] => []
  | c :: cs => escChar c ++ escList cs

/-- Decimal rendering of a nonneg integer, most significant digit first. -/
def decCharsAux : Nat → Nat → List Char
  | 0, _ => []
  | fuel + 1, n =>
    if n = 0 then []
    else decCharsAux fuel (n / 10) ++ [hexDigitChar (n % 10)]

def decChars (n : Nat) : List Char :=
  if n = 0 then ['0'] else decCharsAux n n

def decValAux : Nat → List Char → Nat
  | acc, [] => acc
  | acc, c :: cs => decValAux (acc * 10 + hexCharVal c) cs

def payloadHead : List Char := "\x7b\"agent\": \"".data
def sepAmount : List Char := quoteChar :: ", \"amount\": \"".data
def sepTimestamp : List Char := quoteChar :: ", \"timestamp\": ".data
def sepTxId : List Char := ',' :: " \"tx_id\": ".data
def sepVendor : List Char := ',' :: " \"vendor\": \"".data
def payloadTail : List Char := quoteChar :: "\x7d".data

/-- The canonical serialization `json.dumps(..., sort_keys=True)` of the
five-field dict hashed by `compute_hash` for a transaction
(database.py:883-889): keys in sorted order agent, amount, timestamp,
tx_id, vendor; `", "` and `": "` separators; strings escaped. -/
def payloadChars (tx_id : Nat) (agent vendor amount : String) (timestamp : Nat) : List Char :=
  payloadHead ++ (escList agent.data ++ (sepAmount ++ (escList amount.data ++
    (sepTimestamp ++ (decChars timestamp ++ (sepTxId ++ (decChars tx_id ++
      (sepVendor ++ (escList vendor.data ++ payloadTail)))))))))

def w32 (n : Nat) : Nat := n % 4294967296

def rotr (b n : Nat) : Nat := n / 2 ^ b + n % 2 ^ b * 2 ^ (32 - b)

def shr (b n : Nat) : Nat := n / 2 ^ b

def bigSigma0 (x : Nat) : Nat := (rotr 2 x) ^^^ (rotr 13 x) ^^^ (rotr 22 x)
def bigSigma1 (x : Nat) : Nat := (rotr 6 x) ^^^ (rotr 11 x) ^^^ (rotr 25 x)
def smallSigma0 (x : Nat) : Nat := (rotr 7 x) ^^^ (rotr 18 x) ^^^ (shr 3 x)
def smallSigma1 (x : Nat) : Nat := (rotr 17 x) ^^^ (rotr 19 x) ^^^ (shr 10 x)
def chFn (x y z : Nat) : Nat := (x &&& y) ^^^ ((4294967295 - w32 x) &&& z)
def majFn (x y z : Nat) : Nat := (x &&& y) ^^^ (x &&& z) ^^^ (y &&& z)

def icbrtAux : Nat → Nat → Nat → Nat → Nat
  | 0, lo, _, _ => lo
  | fuel + 1, lo, hi, n =>
    if hi ≤ lo + 1 then lo
    else
      let mid := (lo + hi) / 2
      if mid * mid * mid ≤ n then icbrtAux fuel mid hi n
      else icbrtAux fuel lo mid n

/-- Largest `k` with `k ^ 3 ≤ n`, by binary search. -/
def icbrt (n : Nat) : Nat := icbrtAux 200 0 (n + 1) n

def first64Primes : List Nat :=
  [2, 3, 5, 7, 11, 13, 17, 19, 23, 29, 31, 37, 41, 43, 47, 53, 59, 61, 67, 71, 73, 79,
   83, 89, 97, 101, 103, 107, 109, 113, 127, 131, 137, 139, 149, 151, 157, 163, 167,
   173, 179, 181, 191, 193, 197, 199, 211, 223, 227, 229, 233, 239, 241, 251, 257, 263,
   269, 271, 277, 281, 283, 293, 307, 311]

/-- First 32 bits of the fractional part of the cube root of `p`. -/
def fracCbrt32 (p : Nat) : Nat := icbrt (p * 2 ^ 96) % 4294967296

/-- First 32 bits of the fractional part of the square root of `p`. -/
def fracSqrt32 (p : Nat) : Nat := Nat.sqrt (p * 2 ^ 64) % 4294967296

/-- The SHA-256 round constants (FIPS 180-4: the first 32 bits of the
fractional parts of the cube roots of the first 64 primes). -/
def sha256K : List Nat := first64Primes.map fracCbrt32

structure Hash8 where
  a : Nat
  b : Nat
  c : Nat
  d : Nat
  e : Nat
  f : Nat
  g : Nat
  h : Nat
  deriving DecidableEq, Repr

/-- The SHA-256 initial hash value (FIPS 180-4: the first 32 bits of the
fractional parts of the square roots of the first 8 primes). -/
def sha256Init : Hash8 :=
  ⟨fracSqrt32 2, fracSqrt32 3, fracSqrt32 5, fracSqrt32 7, fracSqrt32 11, fracSqrt32 13,
   fracSqrt32 17, fracSqrt32 19⟩

def sha256Pad (msg : List Nat) : List Nat :=
  let len := msg.length
  let padZeros := (119 - len % 64) % 64
  let bitLen := 8 * len
  msg ++ 128 :: List.replicate padZeros 0 ++
    [bitLen / 2 ^ 56 % 256, bitLen / 2 ^ 48 % 256, bitLen / 2 ^ 40 % 256,
     bitLen / 2 ^ 32 % 256, bitLen / 2 ^ 24 % 256, bitLen / 2 ^ 16 % 256,
     bitLen / 2 ^ 8 % 256, bitLen % 256]

def bytesToWords : List Nat → List Nat
  | b0 :: b1 :: b2 :: b3 :: rest =>
    (b0 * 16777216 + b1 * 65536 + b2 * 256 + b3) :: bytesToWords rest
  | _ => []

def chunks16Aux : Nat → List Nat → List (List Nat)
  | 0, _ => []
  | _, [] => []
  | fuel + 1, ws => ws.take 16 :: chunks16Aux fuel (ws.drop 16)

def chunks16 (ws : List Nat) : List (List Nat) := chunks16Aux ws.length ws

def extendSchedule : Nat → List Nat → List Nat
  | 0, ws => ws
  | n + 1, ws =>
    let t := ws.length
    let w2 := ws.getD (t - 2) 0
    let w7 := ws.getD (t - 7) 0
    let w15 := ws.getD (t - 15) 0
    let w16 := ws.getD (t - 16) 0
    extendSchedule n (ws ++ [w32 (smallSigma1 w2 + w7 + smallSigma0 w15 + w16)])

def sha256Schedule (chunk : List Nat) : List Nat := extendSchedule 48 chunk

def compressStep (s : Hash8) (kw : Nat × Nat) : Hash8 :=
  let t1 := w32 (s.h + bigSigma1 s.e + chFn s.e s.f s.g + kw.1 + kw.2)
  let t2 := w32 (bigSigma0 s.a + majFn s.a s.b s.c)
  ⟨w32 (t1 + t2), s.a, s.b, s.c, w32 (s.d + t1), s.e, s.f, s.g⟩

def compressChunk (s : Hash8) (chunk : List Nat) : Hash8 :=
  let ws := sha256Schedule chunk
  let t := (sha256K.zip ws).foldl compressStep s
  ⟨w32 (s.a + t.a), w32 (s.b + t.b), w32 (s.c + t.c), w32 (s.d + t.d),
   w32 (s.e + t.e), w32 (s.f + t.f), w32 (s.g + t.g), w32 (s.h + t.h)⟩

def sha256Words (msg : List Nat) : Hash8 :=
  (chunks16 (bytesToWords (sha256Pad msg))).foldl compressChunk sha256Init

def sha256Nat (msg : List Nat) : Nat :=
  let s := sha256Words msg
  ((((((s.a * 4294967296 + s.b) * 4294967296 + s.c) * 4294967296 + s.d) * 4294967296 + s.e)
      * 4294967296 + s.f) * 4294967296 + s.g) * 4294967296 + s.h

def hex64 (n : Nat) : List Char :=
  (List.range 64).map (fun i => hexDigitChar (n / 16 ^ (63 - i) % 16))

def sha256HexBytes (msg : List Nat) : String := ⟨hex64 (sha256Nat msg)⟩


def Bounded8 (s : Hash8) : Prop :=
  s.a < 4294967296 ∧ s.b < 4294967296 ∧ s.c < 4294967296 ∧ s.d < 4294967296 ∧
  s.e < 4294967296 ∧ s.f < 4294967296 ∧ s.g < 4294967296 ∧ s.h < 4294967296

/-- `compute_hash` (database.py:68-70) applied to the transaction payload:
the lower-case hex digest of SHA-256 over the bytes of the canonical
serialization. -/
def computeTxHash (tx_id : Nat) (agent vendor amount : String) (timestamp : Nat) : String :=
  ⟨hex64 (sha256Nat ((payloadChars tx_id agent vendor amount timestamp).map Char.toNat))⟩

/-- The row written by `insert_transaction` (database.py:880-913) for a
fresh `(tx_id, vault_address)`: the stored hash is computed from the five
fields tx_id, agent, vendor, amount, timestamp. -/
def insert_transaction_row (tx : TxData) (now : String) : TransactionRow :=
  { tx_id := tx.tx_id, vault_address := tx.vault_address, agent := tx.agent,
    vendor := tx.vendor, amount_wei := tx.amount, timestamp := tx.timestamp,
    execute_after := tx.execute_after, executed := tx.executed, revoked := tx.revoked,
    reason := "", risk_score := tx.risk_score, risk_factors := tx.risk_factors,
    hash := computeTxHash tx.tx_id tx.agent tx.vendor tx.amount tx.timestamp,
    updated_at := now }

/-- `verify_transaction_integrity` (database.py:1204-1221) applied to a
fetched row: re-derive the hash from the stored `tx_id`, `agent`,
`vendor`, `amount_wei`, `timestamp` columns and compare with the stored
`hash` column. -/
def verify_transaction_integrity_row (row : TransactionRow) : Bool :=
  computeTxHash row.tx_id row.agent row.vendor row.amount_wei row.timestamp == row.hash

/-- The five hashed fields of a stored row. -/
def hashFields (row : TransactionRow) : Nat × String × String × String × Nat :=
  (row.tx_id, row.agent, row.vendor, row.amount_wei, row.timestamp)

/-- A run of `n` copies of the letter a, used as an agent address. -/
def aStr (n : Nat) : String := ⟨List.replicate n 'a'⟩

/-- `demoTxRow` with its stored amount altered after creation. -/
def demoTxRowTampered : TransactionRow := { demoTxRow with amount_wei := "2000" }


end Sentinel

namespace Sentinel

/-! ## C2: three consecutive failures deactivate a schedule -/

theorem mem_get_due_schedules {before : String} {db : List ScheduleRow} {s : ScheduleRow}
    (hs : s ∈ get_due_schedules before db) :
    s ∈ db ∧ s.is_active = 1 ∧ textLe s.next_execution before = true := by
  simp only [get_due_schedules, List.mem_filter, Bool.and_eq_true, beq_iff_eq] at hs
  exact ⟨hs.1, hs.2.1, hs.2.2⟩

/-- C2: each failed attempt increments `failed_count` by 1 and a successful
attempt resets it to 0; once the counter reaches 3 the row is deactivated;
`get_due_schedules` only returns rows with `is_active = 1`; hence after
three consecutive failures a schedule is absent from every later due-scan. -/
theorem C2_failure_deactivation :
    (∀ (e now : String) (s : ScheduleRow),
        (updateScheduleFailureRow e now s).failed_count = s.failed_count + 1) ∧
    (∀ (h nx now : String) (s : ScheduleRow),
        (updateScheduleExecutionRow h nx now s).failed_count = 0) ∧
    (∀ (e now : String) (s : ScheduleRow), 3 ≤ (updateScheduleFailureRow e now s).failed_count →
        (updateScheduleFailureRow e now s).is_active = 0) ∧
    (∀ (before : String) (db : List ScheduleRow) (s : ScheduleRow),
        s ∈ get_due_schedules before db → s.is_active = 1) ∧
    (∀ (sid e₁ e₂ e₃ t₁ t₂ t₃ before : String) (db : List ScheduleRow) (s : ScheduleRow),
        s ∈ get_due_schedules before
              (update_schedule_failure sid e₃ t₃
                (update_schedule_failure sid e₂ t₂
                  (update_schedule_failure sid e₁ t₁ db))) → s.id ≠ sid) := by
  refine ⟨fun e now s => rfl, fun h nx now s => rfl, ?_, ?_, ?_⟩
  · intro e now s h3
    simp only [updateScheduleFailureRow] at h3 ⊢
    split
    · omega
    · rfl
  · intro before db s hs
    exact (mem_get_due_schedules hs).2.1
  · intro sid e₁ e₂ e₃ t₁ t₂ t₃ before db s hs hid
    have hactive : s.is_active = 1 := (mem_get_due_schedules hs).2.1
    have hmem := (mem_get_due_schedules hs).1
    simp only [update_schedule_failure, updateWhereId, List.map_map, List.mem_map,
      Function.comp] at hmem
    obtain ⟨s₀, -, heq⟩ := hmem
    by_cases h0 : s₀.id = sid
    · -- all three conditional updates fire; the id is preserved at each step,
      -- so after three failures the row carries failed_count + 3 and is inactive
      simp only [h0, if_pos, updateScheduleFailureRow] at heq
      rw [← heq] at hactive
      simp only [updateScheduleFailureRow] at hactive
      split at hactive
      · omega
      · exact absurd hactive (by decide)
    · simp only [h0, if_neg, not_false_iff] at heq
      rw [← heq] at hid
      exact h0 hid

/-- Witness for C2 at concrete rows: a third failure on a row that already
failed twice reaches count 3 and deactivates it, and an active due row is
returned by the due-scan with its flag set. -/
theorem C2_failure_deactivation_witness :
    (3 ≤ (updateScheduleFailureRow "err" "t3" demoFailingRow).failed_count ∧
     (updateScheduleFailureRow "err" "t3" demoFailingRow).is_active = 0) ∧
    (demoDueRow ∈ get_due_schedules "2024-06-01" [demoDueRow] ∧
     demoDueRow.is_active = 1) := by
  refine ⟨⟨by decide, ?_⟩, ⟨by decide, ?_⟩⟩
  · exact C2_failure_deactivation.2.2.1 "err" "t3" demoFailingRow (by decide)
  · exact C2_failure_deactivation.2.2.2.1 "2024-06-01" [demoDueRow] demoDueRow (by decide)

/-! ## C3: risk-score classification of processed payment requests -/

/-- C3: for every processed `PaymentRequested` event, a score at or above
0.7 persists a critical `high_risk` alert and dispatches the external
notification fan-out; a score in [0.4, 0.7) persists a warning
`medium_risk` alert with no external notification; a lower score produces
neither an alert nor a notification. -/
theorem C3_risk_classification :
    ∀ (tx_id : Nat) (s : ℚ),
      (high_risk_score ≤ s →
        alertDecision tx_id s =
          { alert := some ⟨tx_id, "high_risk", "critical"⟩, notified := true }) ∧
      (medium_risk_score ≤ s → s < high_risk_score →
        alertDecision tx_id s =
          { alert := some ⟨tx_id, "medium_risk", "warning"⟩, notified := false }) ∧
      (s < medium_risk_score →
        alertDecision tx_id s = { alert := none, notified := false }) := by
  intro tx_id s
  refine ⟨fun hh => ?_, fun hm hh => ?_, fun hl => ?_⟩
  · simp only [alertDecision, ge_iff_le, if_pos hh]
  · rw [alertDecision, if_neg (by exact not_le.mpr hh), if_pos hm]
  · rw [alertDecision,
      if_neg (by exact not_le.mpr (lt_trans hl (by norm_num [medium_risk_score, high_risk_score]))),
      if_neg (by exact not_le.mpr hl)]

/-- Witness for C3 at scores 0.75, 0.5 and 0.1. -/
theorem C3_risk_classification_witness :
    alertDecision 7 (3/4) = { alert := some ⟨7, "high_risk", "critical"⟩, notified := true } ∧
    alertDecision 8 (1/2) = { alert := some ⟨8, "medium_risk", "warning"⟩, notified := false } ∧
    alertDecision 9 (1/10) = { alert := none, notified := false } :=
  ⟨(C3_risk_classification 7 (3/4)).1 (by norm_num [high_risk_score]),
   (C3_risk_classification 8 (1/2)).2.1 (by norm_num [medium_risk_score])
     (by norm_num [high_risk_score]),
   (C3_risk_classification 9 (1/10)).2.2 (by norm_num [medium_risk_score])⟩

/-! ## C5: destination validation accepts everything -/

/-- Counterexample to C5 as stated: `is_valid_destination` accepts a
destination that is neither the owning vault, nor a savings contract, nor
the schedule's recorded vendor address — the fallback branch validates
every address. -/
theorem C5_counterexample :
    ¬ (∀ (destination vault_address vendor_address : String),
        (is_valid_destination destination vault_address).valid = true →
          lowerStr destination = lowerStr vault_address ∨
          lowerStr destination = lowerStr sepoliaSavingsContract ∨
          lowerStr destination = lowerStr mainnetSavingsContract ∨
          lowerStr destination = lowerStr vendor_address) := by
  intro h
  have := h "0xaaa1" "0xbbb2" "0xccc3" (by decide)
  revert this
  decide

/-- C5 amended: the destination-validation step accepts every destination.
The owning vault and the savings contracts are accepted with their specific
reasons, and any other address is accepted by the fallback branch as
"Trusted vendor"; no destination is ever rejected, so destination
validation never records a failure and never prevents submission. -/
theorem C5_destination_validation :
    ∀ (destination vault_address : String),
      (is_valid_destination destination vault_address).valid = true ∧
      (lowerStr destination = lowerStr vault_address →
        (is_valid_destination destination vault_address).reason = "Own vault") ∧
      (lowerStr destination ≠ lowerStr vault_address →
        lowerStr destination = lowerStr sepoliaSavingsContract ∨
          lowerStr destination = lowerStr mainnetSavingsContract →
        (is_valid_destination destination vault_address).reason = "Savings contract") ∧
      (lowerStr destination ≠ lowerStr vault_address →
        lowerStr destination ≠ lowerStr sepoliaSavingsContract →
        lowerStr destination ≠ lowerStr mainnetSavingsContract →
        (is_valid_destination destination vault_address).reason = "Trusted vendor") := by
  intro destination vault_address
  simp only [is_valid_destination]
  split_ifs with h1 h2 h3
  · exact ⟨rfl, fun _ => rfl, fun hv _ => absurd h1 hv, fun hv _ _ => absurd h1 hv⟩
  · exact ⟨rfl, fun hv => absurd hv h1, fun _ _ => rfl, fun _ hs _ => absurd h2 hs⟩
  · exact ⟨rfl, fun hv => absurd hv h1, fun _ _ => rfl, fun _ _ hs => absurd h3 hs⟩
  · refine ⟨rfl, fun hv => absurd hv h1, fun _ hs => ?_, fun _ _ _ => rfl⟩
    rcases hs with hs | hs
    · exact absurd hs h2
    · exact absurd hs h3

/-- Witness for C5 amended at concrete addresses. -/
theorem C5_destination_validation_witness :
    is_valid_destination "0xABCD" "0xabcd" = { valid := true, reason := "Own vault" } ∧
    is_valid_destination "0xDEAD" "0xabcd" = { valid := true, reason := "Trusted vendor" } := by
  constructor
  · have h := (C5_destination_validation "0xABCD" "0xabcd").2.1 (by decide)
    have hv := (C5_destination_validation "0xABCD" "0xabcd").1
    cases hval : is_valid_destination "0xABCD" "0xabcd" with
    | mk v r => simp only [hval] at h hv; simp [h, hv]
  · have h := (C5_destination_validation "0xDEAD" "0xabcd").2.2.2
        (by decide) (by decide) (by decide)
    have hv := (C5_destination_validation "0xDEAD" "0xabcd").1
    cases hval : is_valid_destination "0xDEAD" "0xabcd" with
    | mk v r => simp only [hval] at h hv; simp [h, hv]

/-! ## C10: savings-deposit failures only append to the execution log -/

/-- C10: for a failed execution attempt whose payment id does not start
with `sched_` (a savings deposit), `update_payment_failure` appends one
failed log entry and changes nothing else: no schedule row is touched,
and the savings-plans table — which has no failure counter at all — is
never modified, so savings plans are never automatically deactivated. -/
theorem C10_savings_failure_frame :
    (∀ (pid err now : String) (db : SchedulerDb), ¬ startsWithSched pid = true →
      (update_payment_failure pid err now db).schedules = db.schedules ∧
      (update_payment_failure pid err now db).execution_log
        = db.execution_log ++ [failedLogEntry pid err] ∧
      (failedLogEntry pid err).status = "failed" ∧
      (failedLogEntry pid err).savings_plan_id = some pid) ∧
    (∀ (pid err now : String) (db : SchedulerDb),
      (update_payment_failure pid err now db).savings_plans = db.savings_plans) := by
  constructor
  · intro pid err now db h
    refine ⟨?_, rfl, rfl, ?_⟩
    · simp only [update_payment_failure, if_neg h]
    · simp only [failedLogEntry, if_neg h]
  · intro pid err now db
    rw [update_payment_failure]

/-! ## C4: the last-processed-block cursor -/

theorem processAll_eq_of_ok {handler : Event → Except String Unit} :
    ∀ {es done : List Event}, processAll handler es = (done, true) → done = es := by
  intro es
  induction es with
  | nil => intro done hp; simpa [processAll] using congrArg Prod.fst hp.symm
  | cons e es ih =>
    intro done hp
    simp only [processAll] at hp
    cases he : handler e with
    | error err => rw [he] at hp; simp at hp
    | ok u =>
      rw [he] at hp
      have h1 := congrArg Prod.fst hp
      have h2 := congrArg Prod.snd hp
      simp only at h1 h2
      have : (processAll handler es).1 = es := by
        have hih : ∀ d, processAll handler es = (d, true) → d = es := fun d => ih
        exact hih (processAll handler es).1 (by rw [Prod.ext_iff]; exact ⟨rfl, h2⟩)
      rw [← h1, this]

/-- C4: the cursor never decreases; a cycle in which any exception is
raised (fetch or processing, any of the three event kinds) leaves the
cursor unchanged; and whenever the cursor moves, the cycle completed,
the cursor is exactly the chunk's upper bound
`min (cursor + 1 + 100) current`, and every event returned by all three
fetches was processed. -/
theorem C4_cursor_monotonic_atomic :
    ∀ (last current : Nat) (fq fe fv : Nat → Nat → Except String (List Event))
      (pq pe pv : Event → Except String Unit),
      (last ≤ (pollCycle last current fq fe fv pq pe pv).cursor) ∧
      ((pollCycle last current fq fe fv pq pe pv).ok = false →
        (pollCycle last current fq fe fv pq pe pv).cursor = last) ∧
      ((pollCycle last current fq fe fv pq pe pv).cursor ≠ last →
        (pollCycle last current fq fe fv pq pe pv).ok = true ∧
        (pollCycle last current fq fe fv pq pe pv).cursor = min (last + 1 + 100) current ∧
        ∃ evs₁ evs₂ evs₃,
          fq (last + 1) (min (last + 1 + 100) current) = .ok evs₁ ∧
          fe (last + 1) (min (last + 1 + 100) current) = .ok evs₂ ∧
          fv (last + 1) (min (last + 1 + 100) current) = .ok evs₃ ∧
          (pollCycle last current fq fe fv pq pe pv).processed = evs₁ ++ evs₂ ++ evs₃) := by
  intro last current fq fe fv pq pe pv
  by_cases hc : current ≤ last
  · simp only [pollCycle, if_pos hc]
    simp
  · simp only [pollCycle, if_neg hc]
    rcases hfq : fq (last + 1) (min (last + 1 + 100) current) with e₁ | evs₁
    · simp only [hfq]
      simp
    · simp only [hfq]
      rcases hp₁ : processAll pq evs₁ with ⟨d₁, b₁⟩
      cases b₁
      · simp only [hp₁]
        simp
      · simp only [hp₁]
        rcases hfe : fe (last + 1) (min (last + 1 + 100) current) with e₂ | evs₂
        · simp only [hfe]
          simp
        · simp only [hfe]
          rcases hp₂ : processAll pe evs₂ with ⟨d₂, b₂⟩
          cases b₂
          · simp only [hp₂]
            simp
          · simp only [hp₂]
            rcases hfv : fv (last + 1) (min (last + 1 + 100) current) with e₃ | evs₃
            · simp only [hfv]
              simp
            · simp only [hfv]
              rcases hp₃ : processAll pv evs₃ with ⟨d₃, b₃⟩
              cases b₃
              · simp only [hp₃]
                simp
              · simp only [hp₃]
                refine ⟨by omega, fun h => by simp at h, fun _ => ⟨by simp, by simp,
                  evs₁, evs₂, evs₃, by simp, by simp, by simp, ?_⟩⟩
                rw [processAll_eq_of_ok hp₁, processAll_eq_of_ok hp₂,
                  processAll_eq_of_ok hp₃]

/-- Witness for C4: a successful concrete cycle advances the cursor to
the chunk bound after processing all events, and a failing concrete cycle
leaves the cursor unchanged. -/
theorem C4_cursor_monotonic_atomic_witness :
    (pollCycle 10 50 (fun _ _ => .ok [1, 2]) (fun _ _ => .ok [3]) (fun _ _ => .ok [])
        (fun _ => .ok ()) (fun _ => .ok ()) (fun _ => .ok ())).cursor = 50 ∧
    (pollCycle 10 50 (fun _ _ => .ok [1, 2]) (fun _ _ => .ok [3]) (fun _ _ => .ok [])
        (fun _ => .ok ()) (fun _ => .ok ()) (fun _ => .ok ())).processed = [1, 2, 3] ∧
    (pollCycle 10 50 (fun _ _ => .ok [1, 2]) (fun _ _ => .error "rpc down") (fun _ _ => .ok [])
        (fun _ => .ok ()) (fun _ => .ok ()) (fun _ => .ok ())).cursor = 10 := by
  refine ⟨?_, by decide, ?_⟩
  · have h := (C4_cursor_monotonic_atomic 10 50 (fun _ _ => .ok [1, 2]) (fun _ _ => .ok [3])
      (fun _ _ => .ok []) (fun _ => .ok ()) (fun _ => .ok ()) (fun _ => .ok ())).2.2
      (by decide)
    rw [h.2.1]
    omega
  · exact (C4_cursor_monotonic_atomic 10 50 (fun _ _ => .ok [1, 2])
      (fun _ _ => .error "rpc down") (fun _ _ => .ok []) (fun _ => .ok ()) (fun _ => .ok ())
      (fun _ => .ok ())).2.1 (by decide)

/-- Witness for C10 at a concrete savings-plan id. -/
theorem C10_savings_failure_frame_witness :
    ¬ startsWithSched "plan_42" = true ∧
    (update_payment_failure "plan_42" "boom" "t"
        { schedules := [], savings_plans := [], execution_log := [] }).schedules = [] ∧
    (update_payment_failure "plan_42" "boom" "t"
        { schedules := [], savings_plans := [], execution_log := [] }).execution_log
      = [failedLogEntry "plan_42" "boom"] := by
  refine ⟨by decide, ?_, ?_⟩
  · exact (C10_savings_failure_frame.1 "plan_42" "boom" "t" _ (by decide)).1
  · exact (C10_savings_failure_frame.1 "plan_42" "boom" "t" _ (by decide)).2.1

/-! ## C9: the risk scorer is deterministic but prunes the shared window -/

theorem windowOf_prune (agent : String) (now : Int) (recent : List RecentTransaction) :
    windowOf agent now (pruneRecent now recent) = windowOf agent now recent := by
  rw [pruneRecent, windowOf, windowOf, List.filter_filter]
  refine List.filter_congr fun tx _ => ?_
  by_cases hw : now - tx.timestamp < rapid_tx_window ∧ tx.agent = agent
  · have h1 : now - tx.timestamp < 3600 := by
      calc now - tx.timestamp < rapid_tx_window := hw.1
        _ < 3600 := by norm_num [rapid_tx_window]
    simp [hw, h1]
  · simp [hw]

/-- Counterexample to C9 as stated: `calculate_risk_score` is not free of
side effects — it reassigns the shared in-memory `recent_transactions`
window, dropping entries older than one hour.  Concretely, with one
hour-old entry in the window, the stored list after the call differs from
the list before it. -/
theorem C9_counterexample :
    ¬ (∀ (profile : Option AgentProfileRow) (is_trusted : Bool) (agent : String)
        (amount : Int) (recent : List RecentTransaction) (now : Int),
        (calculate_risk_score profile is_trusted agent amount recent now).recent_transactions
          = recent) := by
  intro h
  have := h none true "a" 1 [⟨1, "a", 0, 5⟩] 4000
  revert this
  decide

/-- C9 amended: the `(score, factors)` output is a deterministic function
of the four inputs — agent profile (or its absence), vendor trust flag,
amount, and the agent's time-windowed recent-transaction list: any two
calls whose windows coincide return the identical pair.  The scorer's only
state effect is time-pruning the shared window to the last hour. -/
theorem C9_determinism_and_prune :
    (∀ (profile : Option AgentProfileRow) (is_trusted : Bool) (agent : String) (amount : Int)
        (r₁ r₂ : List RecentTransaction) (now₁ now₂ : Int),
        windowOf agent now₁ r₁ = windowOf agent now₂ r₂ →
        (calculate_risk_score profile is_trusted agent amount r₁ now₁).score
          = (calculate_risk_score profile is_trusted agent amount r₂ now₂).score ∧
        (calculate_risk_score profile is_trusted agent amount r₁ now₁).factors
          = (calculate_risk_score profile is_trusted agent amount r₂ now₂).factors) ∧
    (∀ (profile : Option AgentProfileRow) (is_trusted : Bool) (agent : String) (amount : Int)
        (recent : List RecentTransaction) (now : Int),
        (calculate_risk_score profile is_trusted agent amount recent now).recent_transactions
          = pruneRecent now recent) := by
  constructor
  · intro profile is_trusted agent amount r₁ r₂ now₁ now₂ hwin
    constructor
    · simp only [calculate_risk_score, windowOf_prune, hwin]
    · simp only [calculate_risk_score, windowOf_prune, hwin]
  · intro profile is_trusted agent amount recent now
    rfl

/-- Witness for C9: two calls with different raw state but the same
(empty) window for the scored agent return the same score. -/
theorem C9_determinism_and_prune_witness :
    windowOf "b" 100 [⟨1, "a", 0, 5⟩] = windowOf "b" 0 [] ∧
    (calculate_risk_score none false "b" 1 [⟨1, "a", 0, 5⟩] 100).score
      = (calculate_risk_score none false "b" 1 [] 0).score :=
  ⟨by decide,
   (C9_determinism_and_prune.1 none false "b" 1 [⟨1, "a", 0, 5⟩] [] 100 0 (by decide)).1⟩

/-! ## C6: rapid-transaction bursts -/

/-- Counterexample to C6 as stated: five payment requests from one agent,
all within a 50-second span (well inside the 5-minute window), processed
from an empty sliding window — none of the five computed factor lists
contains `rapid_transactions`, because the scorer counts only the agent's
prior transactions, which number at most 4 during such a burst. -/
theorem C6_counterexample :
    demoBurst5.length = 5 ∧
    (∀ e ∈ demoBurst5, e.agent = "0xagent") ∧
    (∀ e ∈ demoBurst5, ∀ f ∈ demoBurst5, e.timestamp - f.timestamp < rapid_tx_window) ∧
    (processBurst none false [] demoBurst5).length = 5 ∧
    ∀ fs ∈ processBurst none false [] demoBurst5, "rapid_transactions" ∉ fs := by
  decide

theorem rapid_mem_factors (profile : Option AgentProfileRow) (is_trusted : Bool)
    (amount : Int) {window : List RecentTransaction}
    (h5 : rapid_tx_count ≤ window.length) :
    "rapid_transactions" ∈ (riskFromWindow profile is_trusted amount window).2 := by
  cases profile with
  | none =>
    simp only [riskFromWindow]
    split_ifs <;> simp_all
  | some p =>
    simp only [riskFromWindow]
    split_ifs <;> simp_all

/-- If every element of `pre` lies in the agent's rapid window at time
`now`, then `pre` embeds into the window computed from any superlist. -/
theorem sublist_window {pre st : List RecentTransaction} {agent : String} {now : Int}
    (hsub : pre.Sublist st)
    (hw : ∀ p ∈ pre, now - p.timestamp < rapid_tx_window ∧ p.agent = agent) :
    pre.Sublist (windowOf agent now (pruneRecent now st)) := by
  have h1 : pre.Sublist (pruneRecent now st) := by
    have hf := hsub.filter (fun tx => decide (now - tx.timestamp < 3600))
    rwa [List.filter_eq_self.mpr] at hf
    intro p hp
    have h := (hw p hp).1
    simp only [decide_eq_true_eq]
    calc now - p.timestamp < rapid_tx_window := h
      _ < 3600 := by norm_num [rapid_tx_window]
  have hf := h1.filter
    (fun tx => decide (now - tx.timestamp < rapid_tx_window ∧ tx.agent = agent))
  rw [List.filter_eq_self.mpr] at hf
  · exact hf
  · intro p hp
    simpa using hw p hp

theorem burst_aux (profile : Option AgentProfileRow) (is_trusted : Bool) (agent : String) :
    ∀ (evs : List RecentTransaction) (st pre : List RecentTransaction),
      (∀ e ∈ evs, e.agent = agent) →
      (∀ e ∈ pre, e.agent = agent) →
      pre.Sublist st →
      (pre ++ evs).Pairwise (fun a b => a.timestamp ≤ b.timestamp ∧
        b.timestamp - a.timestamp < rapid_tx_window) →
      ∀ (i : Nat) (fs : List String), rapid_tx_count ≤ pre.length + i →
        (processBurst profile is_trusted st evs).get? i = some fs →
        "rapid_transactions" ∈ fs := by
  intro evs
  induction evs with
  | nil =>
    intro st pre _ _ _ _ i fs _ hget
    simp [processBurst] at hget
  | cons e es ih =>
    intro st pre hevs hpre hsub hpair i fs hcount hget
    have hcross : ∀ p ∈ pre, p.timestamp ≤ e.timestamp ∧
        e.timestamp - p.timestamp < rapid_tx_window := by
      intro p hp
      exact (List.pairwise_append.mp hpair).2.2 p hp e (List.mem_cons_self e es)
    have hagent_e : e.agent = agent := hevs e (List.mem_cons_self e es)
    cases i with
    | zero =>
      simp only [processBurst, List.get?_cons_zero, Option.some.injEq] at hget
      subst hget
      have hwpre : ∀ p ∈ pre, e.timestamp - p.timestamp < rapid_tx_window ∧
          p.agent = e.agent := by
        intro p hp
        exact ⟨(hcross p hp).2, (hpre p hp).trans hagent_e.symm⟩
      have hwin := sublist_window hsub hwpre
      have hlen : rapid_tx_count ≤
          (windowOf e.agent e.timestamp (pruneRecent e.timestamp st)).length := by
        have := hwin.length_le
        omega
      exact rapid_mem_factors profile is_trusted e.amount hlen
    | succ j =>
      simp only [processBurst, List.get?_cons_succ] at hget
      refine ih (processBurstStep profile is_trusted st e).2 (pre ++ [e])
        (fun x hx => hevs x (List.mem_cons_of_mem e hx))
        (fun x hx => by
          rcases List.mem_append.mp hx with h | h
          · exact hpre x h
          · rw [List.mem_singleton.mp h]; exact hagent_e)
        ?_ ?_ j fs (by simp; omega) hget
      · -- pre ++ [e] embeds into the pruned window with e appended
        have hprune : pre.Sublist (pruneRecent e.timestamp st) := by
          have hf := hsub.filter (fun tx => decide (e.timestamp - tx.timestamp < 3600))
          rwa [List.filter_eq_self.mpr] at hf
          intro p hp
          simp only [decide_eq_true_eq]
          calc e.timestamp - p.timestamp < rapid_tx_window := (hcross p hp).2
            _ < 3600 := by norm_num [rapid_tx_window]
        have : (pre ++ [e]).Sublist (pruneRecent e.timestamp st ++ [e]) :=
          hprune.append (List.Sublist.refl [e])
        simpa [processBurstStep, calculate_risk_score] using this
      · have : pre ++ e :: es = (pre ++ [e]) ++ es := by simp
        rw [this] at hpair
        exact hpair

/-- C6 amended: the scorer counts only the agent's transactions already in
the 5-minute window, so the `rapid_transactions` factor appears exactly
once at least 5 prior transactions of the agent fall inside the window —
in a single-agent burst (timestamps ordered, pairwise within the window),
the factor list of the 6th and every later transaction contains
`rapid_transactions`; the first 5 of a fresh burst do not trigger it. -/
theorem C6_rapid_from_sixth :
    ∀ (profile : Option AgentProfileRow) (is_trusted : Bool) (agent : String)
      (st : List RecentTransaction) (evs : List RecentTransaction),
      (∀ e ∈ evs, e.agent = agent) →
      evs.Pairwise (fun a b => a.timestamp ≤ b.timestamp ∧
        b.timestamp - a.timestamp < rapid_tx_window) →
      ∀ (i : Nat) (fs : List String), rapid_tx_count ≤ i →
        (processBurst profile is_trusted st evs).get? i = some fs →
        "rapid_transactions" ∈ fs := by
  intro profile is_trusted agent st evs hevs hpair i fs hi hget
  exact burst_aux profile is_trusted agent evs st [] hevs (by simp)
    (List.nil_sublist st) (by simpa using hpair) i fs (by simpa using hi) hget

/-- Witness for C6 amended: in the concrete 6-event burst, the sixth
factor list contains `rapid_transactions`. -/
theorem C6_rapid_from_sixth_witness :
    (processBurst none true [] demoBurst6).get? 5
      = some ["unknown_agent", "rapid_transactions"] ∧
    "rapid_transactions" ∈ ["unknown_agent", "rapid_transactions"] := by
  refine ⟨by decide, ?_⟩
  refine C6_rapid_from_sixth none true "0xagent" [] demoBurst6 (by decide) (by decide)
    5 _ (by decide) (by decide)

/-! ## C7: the monthly next-occurrence rule -/

/-- Counterexample to C7 as stated: from 2024-01-31, the code's monthly
advancement (a fixed 30-day `timedelta`) lands on 2024-03-01, while the
spec's calendar-month-plus-clamp-to-28 rule would give 2024-02-28.  The
code never clamps the day-of-month to 28. -/
theorem C7_counterexample :
    calculate_next_date .monthly 9 0 ⟨2024, 1, 31, 13, 45, 12, 0⟩ = ⟨2024, 3, 1, 9, 0, 0, 0⟩ ∧
    specMonthlyNext 9 0 ⟨2024, 1, 31, 13, 45, 12, 0⟩ = ⟨2024, 2, 28, 9, 0, 0, 0⟩ ∧
    calculate_next_date .monthly 9 0 ⟨2024, 1, 31, 13, 45, 12, 0⟩
      ≠ specMonthlyNext 9 0 ⟨2024, 1, 31, 13, 45, 12, 0⟩ := by
  decide

theorem daysInMonth_pos (y m : Nat) : 1 ≤ daysInMonth y m := by
  unfold daysInMonth
  split_ifs <;> norm_num

theorem addOneDay_valid {d : PyDateTime} (h : ValidDate d) : ValidDate (addOneDay d) := by
  obtain ⟨h1, h2, h3, h4⟩ := h
  unfold addOneDay
  split_ifs with hd hm
  · exact ⟨h1, h2, by show 1 ≤ d.day + 1; omega,
      by show d.day + 1 ≤ daysInMonth d.year d.month; omega⟩
  · exact ⟨by show 1 ≤ d.month + 1; omega, by show d.month + 1 ≤ 12; omega,
      le_refl 1, daysInMonth_pos _ _⟩
  · exact ⟨le_refl 1, by show (1 : Nat) ≤ 12; norm_num, le_refl 1, daysInMonth_pos _ _⟩

theorem addDays_valid : ∀ (n : Nat) {d : PyDateTime}, ValidDate d → ValidDate (addDays n d)
  | 0, _, h => h
  | n + 1, _, h => addDays_valid n (addOneDay_valid h)

/-- C7 amended: for every execution time-of-day and every current time,
the monthly rule advances `now` by a fixed 30-day interval (no
day-of-month clamping, no calendar-month arithmetic) and then overwrites
the time-of-day component with the configured hour and minute, zeroing
seconds and microseconds; starting from a valid date it always produces a
valid calendar date. -/
theorem C7_monthly_next_date :
    ∀ (hour minute : Nat) (now : PyDateTime),
      calculate_next_date .monthly hour minute now = replaceTime hour minute (addDays 30 now) ∧
      (calculate_next_date .monthly hour minute now).hour = hour ∧
      (calculate_next_date .monthly hour minute now).minute = minute ∧
      (calculate_next_date .monthly hour minute now).second = 0 ∧
      (calculate_next_date .monthly hour minute now).microsecond = 0 ∧
      (calculate_next_date .monthly hour minute now).year = (addDays 30 now).year ∧
      (calculate_next_date .monthly hour minute now).month = (addDays 30 now).month ∧
      (calculate_next_date .monthly hour minute now).day = (addDays 30 now).day ∧
      (ValidDate now → ValidDate (calculate_next_date .monthly hour minute now)) := by
  intro hour minute now
  have hmain : calculate_next_date .monthly hour minute now
      = replaceTime hour minute (addDays 30 now) := by
    simp only [calculate_next_date]
  rw [hmain]
  generalize hx : addDays 30 now = X
  refine ⟨rfl, rfl, rfl, rfl, rfl, rfl, rfl, rfl, fun hv => ?_⟩
  have h30 : ValidDate X := hx ▸ addDays_valid 30 hv
  exact ⟨h30.1, h30.2.1, h30.2.2.1, h30.2.2.2⟩

/-- Witness for C7 amended at 2024-02-27 05:06:07: the result is the
valid date 2024-03-28 09:30:00. -/
theorem C7_monthly_next_date_witness :
    ValidDate ⟨2024, 2, 27, 5, 6, 7, 8⟩ ∧
    calculate_next_date .monthly 9 30 ⟨2024, 2, 27, 5, 6, 7, 8⟩ = ⟨2024, 3, 28, 9, 30, 0, 0⟩ ∧
    ValidDate (calculate_next_date .monthly 9 30 ⟨2024, 2, 27, 5, 6, 7, 8⟩) :=
  ⟨by decide, by decide,
   (C7_monthly_next_date 9 30 ⟨2024, 2, 27, 5, 6, 7, 8⟩).2.2.2.2.2.2.2.2 (by decide)⟩

/-! ## C8: which fields the post-creation operations may touch -/

/-- Counterexample to C8 as stated: `update_transaction_status` also
rewrites the `reason` column (used by `process_payment_revoked` to store
the on-chain revocation reason), which is not one of the executed/revoked
flags or a bookkeeping timestamp. -/
theorem C8_counterexample :
    (update_transaction_status none (some true) (some "fraud") "t1" demoTxRow).reason = "fraud" ∧
    demoTxRow.reason = "" ∧
    (update_transaction_status none (some true) (some "fraud") "t1" demoTxRow).reason
      ≠ demoTxRow.reason := by
  refine ⟨rfl, rfl, ?_⟩
  intro h
  exact absurd (rfl.symm.trans (h.trans rfl) : "fraud" = "") (by decide)

/-- C8 amended: after a `TransactionRow` is created, every subsequent
operation on it — `update_transaction_status` with any combination of
arguments, and re-insertion of the same `(tx_id, vault)` through the
`ON CONFLICT` clause — changes at most the `executed` and `revoked` flags,
the revocation `reason` text, and the `updated_at` bookkeeping timestamp;
the integrity hash, tx_id, vault, agent, vendor, amount, timestamp,
execute_after, risk score and risk factors are left unchanged. -/
theorem C8_update_frame :
    ∀ (e r : Option Bool) (rsn : Option String) (now : String) (row : TransactionRow)
      (tx_data : TxData),
      (update_transaction_status e r rsn now row).hash = row.hash ∧
      (update_transaction_status e r rsn now row).tx_id = row.tx_id ∧
      (update_transaction_status e r rsn now row).vault_address = row.vault_address ∧
      (update_transaction_status e r rsn now row).agent = row.agent ∧
      (update_transaction_status e r rsn now row).vendor = row.vendor ∧
      (update_transaction_status e r rsn now row).amount_wei = row.amount_wei ∧
      (update_transaction_status e r rsn now row).timestamp = row.timestamp ∧
      (update_transaction_status e r rsn now row).execute_after = row.execute_after ∧
      (update_transaction_status e r rsn now row).risk_score = row.risk_score ∧
      (update_transaction_status e r rsn now row).risk_factors = row.risk_factors ∧
      (reinsertOnConflict tx_data now row).hash = row.hash ∧
      (reinsertOnConflict tx_data now row).tx_id = row.tx_id ∧
      (reinsertOnConflict tx_data now row).vault_address = row.vault_address ∧
      (reinsertOnConflict tx_data now row).agent = row.agent ∧
      (reinsertOnConflict tx_data now row).vendor = row.vendor ∧
      (reinsertOnConflict tx_data now row).amount_wei = row.amount_wei ∧
      (reinsertOnConflict tx_data now row).timestamp = row.timestamp ∧
      (reinsertOnConflict tx_data now row).execute_after = row.execute_after ∧
      (reinsertOnConflict tx_data now row).reason = row.reason ∧
      (reinsertOnConflict tx_data now row).risk_score = row.risk_score ∧
      (reinsertOnConflict tx_data now row).risk_factors = row.risk_factors := by
  intro e r rsn now row tx_data
  cases e <;> cases r <;> cases rsn <;>
    simp [update_transaction_status, reinsertOnConflict]


/-! ## C1: the transaction integrity hash -/

theorem hexCharVal_hexDigitChar {n : Nat} (h : n < 16) :
    hexCharVal (hexDigitChar n) = n := by
  interval_cases n <;> decide

theorem char_valid_nat (c : Char) :
    c.toNat < 55296 ∨ (57343 < c.toNat ∧ c.toNat < 1114112) := c.valid

theorem char_toNat_inj {c c' : Char} (h : c.toNat = c'.toNat) : c = c' := by
  have h1 := Char.ofNat_toNat c
  have h2 := Char.ofNat_toNat c'
  rw [← h1, ← h2, h]

theorem hexQuad_hex4 (n : Nat) (hn : n < 65536) (rest : List Char) :
    hexQuad (hex4 n ++ rest) = some (n, rest) := by
  simp only [hex4, List.cons_append, List.nil_append, hexQuad]
  rw [hexCharVal_hexDigitChar (show n / 4096 % 16 < 16 by omega),
    hexCharVal_hexDigitChar (show n / 256 % 16 < 16 by omega),
    hexCharVal_hexDigitChar (show n / 16 % 16 < 16 by omega),
    hexCharVal_hexDigitChar (show n % 16 < 16 by omega)]
  simp only [Option.some.injEq, Prod.mk.injEq]
  refine ⟨by omega, by trivial⟩

theorem decodeEsc_u (l : List Char) : decodeEsc ('\\' :: 'u' :: l) =
    (match hexQuad l with
    | none => none
    | some (v, rest3) =>
      if 55296 ≤ v ∧ v ≤ 56319 then
        match rest3 with
        | b1 :: b2 :: rest4 =>
          if b1 = '\\' ∧ b2 = 'u' then
            match hexQuad rest4 with
            | some (w, rest5) => some (65536 + (v - 55296) * 1024 + (w - 56320), rest5)
            | none => none
          else none
        | _ => none
      else some (v, rest3)) := rfl

theorem decodeEsc_plain {c : Char} (h : ¬ c = '\\') (rest : List Char) :
    decodeEsc (c :: rest) = some (c.toNat, rest) := by
  simp [decodeEsc, h]

theorem decodeEsc_escChar (c : Char) (rest : List Char) :
    decodeEsc (escChar c ++ rest) = some (c.toNat, rest) := by
  have hv := char_valid_nat c
  by_cases h1 : c = '\\'
  · subst h1; rfl
  · by_cases h2 : c = quoteChar
    · subst h2; rfl
    · by_cases h3 : c = '\n'
      · subst h3; rfl
      · by_cases h4 : c = '\r'
        · subst h4; rfl
        · by_cases h5 : c = '\t'
          · subst h5; rfl
          · by_cases h6 : c.toNat = 8
            · have hc : c = Char.ofNat 8 := char_toNat_inj (by rw [h6]; rfl)
              subst hc; rfl
            · by_cases h7 : c.toNat = 12
              · have hc : c = Char.ofNat 12 := char_toNat_inj (by rw [h7]; rfl)
                subst hc; rfl
              · by_cases h8 : c.toNat < 32
                · rw [escChar, if_neg h1, if_neg h2, if_neg h3, if_neg h4, if_neg h5,
                    if_neg h6, if_neg h7, if_pos h8]
                  simp only [List.cons_append]
                  rw [decodeEsc_u, hexQuad_hex4 c.toNat (by omega)]
                  simp only
                  rw [if_neg (by omega)]
                · by_cases h9 : c.toNat ≤ 126
                  · rw [escChar, if_neg h1, if_neg h2, if_neg h3, if_neg h4, if_neg h5,
                      if_neg h6, if_neg h7, if_neg h8, if_pos h9]
                    simp only [List.cons_append, List.nil_append]
                    exact decodeEsc_plain h1 rest
                  · by_cases h10 : c.toNat ≤ 65535
                    · rw [escChar, if_neg h1, if_neg h2, if_neg h3, if_neg h4, if_neg h5,
                        if_neg h6, if_neg h7, if_neg h8, if_neg h9, if_pos h10]
                      simp only [List.cons_append]
                      rw [decodeEsc_u, hexQuad_hex4 c.toNat (by omega)]
                      simp only
                      rw [if_neg (by omega)]
                    · rw [escChar, if_neg h1, if_neg h2, if_neg h3, if_neg h4, if_neg h5,
                        if_neg h6, if_neg h7, if_neg h8, if_neg h9, if_neg h10]
                      simp only [List.cons_append, List.append_assoc]
                      rw [decodeEsc_u, hexQuad_hex4 (55296 + (c.toNat - 65536) / 1024) (by omega)]
                      simp only
                      rw [if_pos (by constructor <;> omega)]
                      rw [if_pos (by simp), hexQuad_hex4 (56320 + (c.toNat - 65536) % 1024) (by omega)]
                      simp only [Option.some.injEq, Prod.mk.injEq]
                      refine ⟨by omega, by trivial⟩

theorem escChar_det {c c' : Char} {r r' : List Char}
    (h : escChar c ++ r = escChar c' ++ r') : c = c' ∧ r = r' := by
  have h1 := decodeEsc_escChar c r
  have h2 := decodeEsc_escChar c' r'
  rw [h] at h1
  have h3 := h1.symm.trans h2
  simp only [Option.some.injEq, Prod.mk.injEq] at h3
  exact ⟨char_toNat_inj h3.1, h3.2⟩

theorem escChar_ne_nil (c : Char) : escChar c ≠ [] := by
  intro h
  have h1 := decodeEsc_escChar c []
  rw [h] at h1
  simp [decodeEsc] at h1

theorem escChar_head_ne_quote (c : Char) (t : List Char) : escChar c ≠ quoteChar :: t := by
  intro h
  have h1 := decodeEsc_escChar c []
  rw [h, List.cons_append, decodeEsc_plain (by decide)] at h1
  simp only [Option.some.injEq, Prod.mk.injEq] at h1
  have hq : c = quoteChar := char_toNat_inj h1.1.symm
  subst hq
  have h2 : (['\\', quoteChar] : List Char) = quoteChar :: t := h
  simp only [List.cons.injEq] at h2
  exact absurd h2.1 (by decide)

theorem escChar_ne_nil_head (c : Char) :
    ∃ (h : Char) (t : List Char), escChar c = h :: t ∧ h ≠ quoteChar := by
  cases he : escChar c with
  | nil => exact absurd he (escChar_ne_nil c)
  | cons hd tl =>
    refine ⟨hd, tl, rfl, fun hq => ?_⟩
    subst hq
    exact escChar_head_ne_quote c tl he

theorem escList_quote_term : ∀ (a a' : List Char) (r r' : List Char),
    escList a ++ quoteChar :: r = escList a' ++ quoteChar :: r' → a = a' ∧ r = r' := by
  intro a
  induction a with
  | nil =>
    intro a' r r' h
    cases a' with
    | nil => simpa using h
    | cons c cs =>
      obtain ⟨hd, tl, he, hq⟩ := escChar_ne_nil_head c
      simp only [escList, List.nil_append, he, List.cons_append, List.append_assoc,
        List.cons.injEq] at h
      exact absurd h.1 (fun hh => hq hh.symm)
  | cons c cs ih =>
    intro a' r r' h
    cases a' with
    | nil =>
      obtain ⟨hd, tl, he, hq⟩ := escChar_ne_nil_head c
      simp only [escList, List.nil_append, he, List.cons_append, List.append_assoc,
        List.cons.injEq] at h
      exact absurd h.1 hq
    | cons c' cs' =>
      simp only [escList, List.append_assoc] at h
      obtain ⟨hc, ht⟩ := escChar_det h
      obtain ⟨hcs, hr⟩ := ih cs' r r' ht
      exact ⟨by rw [hc, hcs], hr⟩

theorem append_term_eq {t : Char} : ∀ {xs ys rest rest' : List Char},
    (∀ c ∈ xs, c ≠ t) → (∀ c ∈ ys, c ≠ t) →
    xs ++ t :: rest = ys ++ t :: rest' → xs = ys ∧ rest = rest' := by
  intro xs
  induction xs with
  | nil =>
    intro ys rest rest' _ hy h
    cases ys with
    | nil => simpa using h
    | cons y ys =>
      simp only [List.nil_append, List.cons_append, List.cons.injEq] at h
      exact absurd h.1.symm (hy y (List.mem_cons_self y ys))
  | cons x xs ih =>
    intro ys rest rest' hx hy h
    cases ys with
    | nil =>
      simp only [List.nil_append, List.cons_append, List.cons.injEq] at h
      exact absurd h.1 (hx x (List.mem_cons_self x xs))
    | cons y ys =>
      simp only [List.cons_append, List.cons.injEq] at h
      obtain ⟨hxs, hr⟩ := ih (fun c hc => hx c (List.mem_cons_of_mem x hc))
        (fun c hc => hy c (List.mem_cons_of_mem y hc)) h.2
      exact ⟨by rw [h.1, hxs], hr⟩

theorem decValAux_append (acc : Nat) (xs ys : List Char) :
    decValAux acc (xs ++ ys) = decValAux (decValAux acc xs) ys := by
  induction xs generalizing acc with
  | nil => rfl
  | cons x xs ih =>
    simp only [List.cons_append, decValAux]
    exact ih _

theorem decCharsAux_val : ∀ (fuel n acc : Nat), n ≤ fuel →
    decValAux acc (decCharsAux fuel n) = acc * 10 ^ (decCharsAux fuel n).length + n := by
  intro fuel
  induction fuel with
  | zero =>
    intro n acc hn
    have : n = 0 := by omega
    subst this
    simp [decCharsAux, decValAux]
  | succ fuel ih =>
    intro n acc hn
    by_cases h0 : n = 0
    · subst h0
      simp [decCharsAux, decValAux]
    · have hdiv : n / 10 ≤ fuel := by
        have := Nat.div_lt_self (Nat.pos_of_ne_zero h0) (by norm_num : 1 < 10)
        omega
      simp only [decCharsAux, if_neg h0, decValAux_append]
      rw [ih (n / 10) acc hdiv]
      simp only [decValAux, List.length_append, List.length_cons, List.length_nil]
      rw [hexCharVal_hexDigitChar (show n % 10 < 16 by omega)]
      have hmod := Nat.div_add_mod n 10
      have hpow : 10 ^ ((decCharsAux fuel (n / 10)).length + (0 + 1))
          = 10 ^ (decCharsAux fuel (n / 10)).length * 10 := by
        rw [Nat.add_comm 0 1, pow_succ]
      rw [hpow]
      ring_nf
      omega

theorem decVal_decChars (n : Nat) : decValAux 0 (decChars n) = n := by
  by_cases h0 : n = 0
  · subst h0; rfl
  · rw [decChars, if_neg h0, decCharsAux_val n n 0 (le_refl n)]
    simp

theorem decChars_inj {m n : Nat} (h : decChars m = decChars n) : m = n := by
  have hm := decVal_decChars m
  have hn := decVal_decChars n
  rw [h] at hm
  omega

theorem decCharsAux_digits : ∀ (fuel n : Nat) (c : Char), c ∈ decCharsAux fuel n →
    ∃ d, d < 10 ∧ c = hexDigitChar d := by
  intro fuel
  induction fuel with
  | zero => intro n c hc; simp [decCharsAux] at hc
  | succ fuel ih =>
    intro n c hc
    by_cases h0 : n = 0
    · subst h0; simp [decCharsAux] at hc
    · simp only [decCharsAux, if_neg h0, List.mem_append, List.mem_singleton] at hc
      rcases hc with hc | hc
      · exact ih (n / 10) c hc
      · exact ⟨n % 10, by omega, hc⟩

theorem decChars_digits (n : Nat) (c : Char) (hc : c ∈ decChars n) :
    ∃ d, d < 10 ∧ c = hexDigitChar d := by
  by_cases h0 : n = 0
  · subst h0
    rw [decChars, if_pos rfl] at hc
    simp only [List.mem_singleton] at hc
    exact ⟨0, by norm_num, hc⟩
  · rw [decChars, if_neg h0] at hc
    exact decCharsAux_digits n n c hc

theorem decChars_ne_comma (n : Nat) (c : Char) (hc : c ∈ decChars n) : c ≠ ',' := by
  obtain ⟨d, hd, hcd⟩ := decChars_digits n c hc
  subst hcd
  interval_cases d <;> decide

theorem string_data_inj {s t : String} (h : s.data = t.data) : s = t :=
  congrArg String.mk h

theorem payloadChars_inj
    {t t' ts ts' : Nat} {a a' v v' m m' : String}
    (h : payloadChars t a v m ts = payloadChars t' a' v' m' ts') :
    t = t' ∧ a = a' ∧ v = v' ∧ m = m' ∧ ts = ts' := by
  unfold payloadChars at h
  replace h := List.append_cancel_left h
  simp only [sepAmount, List.cons_append] at h
  obtain ⟨ha, h⟩ := escList_quote_term _ _ _ _ h
  simp only [List.cons.injEq, eq_self_iff_true, true_and, List.nil_append] at h
  simp only [sepTimestamp, List.cons_append] at h
  obtain ⟨hm, h⟩ := escList_quote_term _ _ _ _ h
  simp only [List.cons.injEq, eq_self_iff_true, true_and, List.nil_append] at h
  simp only [sepTxId, List.cons_append] at h
  obtain ⟨hts, h⟩ := append_term_eq (decChars_ne_comma ts) (decChars_ne_comma ts') h
  simp only [List.cons.injEq, eq_self_iff_true, true_and, List.nil_append] at h
  simp only [sepVendor, List.cons_append] at h
  obtain ⟨ht, h⟩ := append_term_eq (decChars_ne_comma t) (decChars_ne_comma t') h
  simp only [List.cons.injEq, eq_self_iff_true, true_and, List.nil_append] at h
  simp only [payloadTail, List.cons_append] at h
  obtain ⟨hv, -⟩ := escList_quote_term _ _ _ _ h
  exact ⟨decChars_inj ht, string_data_inj ha, string_data_inj hv,
    string_data_inj hm, decChars_inj hts⟩

theorem w32_lt (n : Nat) : w32 n < 4294967296 := Nat.mod_lt _ (by norm_num)

theorem compressChunk_bounded (s : Hash8) (chunk : List Nat) :
    Bounded8 (compressChunk s chunk) := by
  refine ⟨?_, ?_, ?_, ?_, ?_, ?_, ?_, ?_⟩ <;> exact w32_lt _

theorem foldl_compress_bounded (l : List (List Nat)) :
    ∀ (s : Hash8), Bounded8 s → Bounded8 (l.foldl compressChunk s) := by
  induction l with
  | nil => intro s h; exact h
  | cons c cs ih =>
    intro s _
    rw [List.foldl_cons]
    exact ih (compressChunk s c) (compressChunk_bounded s c)

theorem fracSqrt32_lt (p : Nat) : fracSqrt32 p < 4294967296 :=
  Nat.mod_lt _ (by norm_num)

theorem sha256Words_bounded (msg : List Nat) : Bounded8 (sha256Words msg) :=
  foldl_compress_bounded _ _
    ⟨fracSqrt32_lt 2, fracSqrt32_lt 3, fracSqrt32_lt 5, fracSqrt32_lt 7,
     fracSqrt32_lt 11, fracSqrt32_lt 13, fracSqrt32_lt 17, fracSqrt32_lt 19⟩

theorem sha256Nat_lt (msg : List Nat) : sha256Nat msg < 2 ^ 256 := by
  obtain ⟨h1, h2, h3, h4, h5, h6, h7, h8⟩ := sha256Words_bounded msg
  have hp : (2 : Nat) ^ 256 =
      115792089237316195423570985008687907853269984665640564039457584007913129639936 := by
    norm_num
  rw [sha256Nat, hp]
  omega

/-- Counterexample to C1 as stated: the claim that the re-derived hash
differs from the stored hash for *every* record with an altered field is
false in principle — SHA-256 maps infinitely many distinct five-field
payloads (here: agent addresses of different lengths) into the finite set
of 256-bit digests, so by the pigeonhole principle two records differing
in the agent field share the same hex digest, and re-deriving the hash of
the altered record reproduces the stored hash exactly. -/
theorem C1_counterexample :
    ¬ (∀ (r r' : TransactionRow),
        r.hash = computeTxHash r.tx_id r.agent r.vendor r.amount_wei r.timestamp →
        hashFields r' ≠ hashFields r →
        computeTxHash r'.tx_id r'.agent r'.vendor r'.amount_wei r'.timestamp ≠ r.hash) := by
  intro hclaim
  obtain ⟨m, n, hmn, hfeq⟩ := Finite.exists_ne_map_eq_of_infinite
    (fun k : ℕ => (⟨sha256Nat ((payloadChars 1 (aStr k) "v" "1" 0).map Char.toNat),
      sha256Nat_lt _⟩ : Fin (2 ^ 256)))
  have hval : sha256Nat ((payloadChars 1 (aStr m) "v" "1" 0).map Char.toNat)
      = sha256Nat ((payloadChars 1 (aStr n) "v" "1" 0).map Char.toNat) :=
    congrArg Fin.val hfeq
  have hastr : aStr m ≠ aStr n := by
    intro he
    apply hmn
    have := congrArg (fun s : String => s.data.length) he
    simpa [aStr] using this
  have hcon := hclaim
    (insert_transaction_row ⟨1, "", aStr n, "v", "1", 0, 0, 0, 0, 0, []⟩ "t")
    (insert_transaction_row ⟨1, "", aStr m, "v", "1", 0, 0, 0, 0, 0, []⟩ "t")
    rfl
    (by
      intro he
      simp only [hashFields, insert_transaction_row, Prod.mk.injEq] at he
      exact hastr he.2.1)
  apply hcon
  show computeTxHash 1 (aStr m) "v" "1" 0 = computeTxHash 1 (aStr n) "v" "1" 0
  rw [computeTxHash, computeTxHash, hval]

/-- C1 amended: re-deriving the integrity hash from the stored fields of a
record created by `insert_transaction` always equals the stored hash
(`verify_transaction_integrity` returns true); and altering any of the
five hashed fields changes the canonical serialization fed to SHA-256
(the serialization is injective on the five-tuple), so the re-derived
digest differs from the stored one except at an outright SHA-256
collision of the two serializations. -/
theorem C1_hash_integrity :
    (∀ (tx : TxData) (now : String),
      verify_transaction_integrity_row (insert_transaction_row tx now) = true) ∧
    (∀ (r r' : TransactionRow), hashFields r ≠ hashFields r' →
      payloadChars r.tx_id r.agent r.vendor r.amount_wei r.timestamp
        ≠ payloadChars r'.tx_id r'.agent r'.vendor r'.amount_wei r'.timestamp) := by
  constructor
  · intro tx now
    simp [verify_transaction_integrity_row, insert_transaction_row]
  · intro r r' hne heq
    obtain ⟨h1, h2, h3, h4, h5⟩ := payloadChars_inj heq
    refine hne ?_
    simp only [hashFields, Prod.mk.injEq]
    exact ⟨h1, h2, h3, h4, h5⟩

/-- Witness for C1 amended at a concrete tampered record: altering the
stored amount changes the five-field tuple and hence the hash payload. -/
theorem C1_hash_integrity_witness :
    hashFields demoTxRow ≠ hashFields demoTxRowTampered ∧
    payloadChars demoTxRow.tx_id demoTxRow.agent demoTxRow.vendor demoTxRow.amount_wei
        demoTxRow.timestamp
      ≠ payloadChars demoTxRowTampered.tx_id demoTxRowTampered.agent demoTxRowTampered.vendor
        demoTxRowTampered.amount_wei demoTxRowTampered.timestamp :=
  ⟨by decide, C1_hash_integrity.2 demoTxRow demoTxRowTampered (by decide)⟩

end Sentinel
